import Mathlib

/-!
Verification of the dual-execution mutation layer of the excel-mcp-server
repository. Strings are modelled as `List Char`; the TypeScript sources are
embedded shallowly, definition by definition:
* `escapeAppleScriptString`, `formatValueForAppleScript`,
  `numberToColumnLetter`, `columnLetterToNumber`, `execAppleScriptWithRetry`,
  `addRowViaAppleScript` from `src/tools/excel-applescript.ts`;
* `columnNumberToLetter` from `src/tools/helpers.ts`;
* the routing logic of `updateCell` / `setFormula` (`src/tools/write.ts`),
  `deleteRows` (`src/tools/operations.ts`), and
  `createSheet` / `deleteSheet` / `renameSheet` (`src/tools/sheets.ts`).
-/

namespace ExcelMcp

/-- One global single-character regex replacement, `s.replace(/x/g, repl)`
for a single-character pattern `x` and a replacement `repl` that contains no
`$`-patterns: each occurrence of `x` becomes `repl`, other characters stay. -/
def replaceChar (target : Char) (repl : List Char) (s : List Char) : List Char :=
  s.flatMap (fun c => if c = target then repl else [c])

/-- `escapeAppleScriptString` (excel-applescript.ts lines 16-21): backslashes
are doubled first, then a backslash is put before each double quote, then
before each single quote, by three chained global replaces. -/
def escapeAppleScriptString (s : List Char) : List Char :=
  replaceChar '\'' ['\\', '\'']
    (replaceChar '"' ['\\', '"']
      (replaceChar '\\' ['\\', '\\'] s))

/-- The per-character effect of the three chained replaces of
`escapeAppleScriptString` (proved equal to it in `escapeAppleScriptString_eq_flatMap`). -/
def escChar (c : Char) : List Char :=
  if c = '\\' then ['\\', '\\']
  else if c = '"' then ['\\', '"']
  else if c = '\'' then ['\\', '\'']
  else [c]

/-- Re-parse a (double-)quoted string literal body: a backslash escapes the
character after it, every other character stands for itself; a trailing lone
backslash is malformed. -/
def unescapeQuoted : List Char → Option (List Char)
  | [] => some []
  | c :: rest =>
    if c = '\\' then
      match rest with
      | [] => none
      | d :: rest2 => (unescapeQuoted rest2).map (fun t => d :: t)
    else
      (unescapeQuoted rest).map (fun t => c :: t)

theorem replaceChar_append (t : Char) (r : List Char) (a b : List Char) :
    replaceChar t r (a ++ b) = replaceChar t r a ++ replaceChar t r b := by
  simp [replaceChar]

theorem escapeAppleScriptString_append (a b : List Char) :
    escapeAppleScriptString (a ++ b) =
      escapeAppleScriptString a ++ escapeAppleScriptString b := by
  simp [escapeAppleScriptString, replaceChar_append]

theorem escapeAppleScriptString_single (c : Char) :
    escapeAppleScriptString [c] = escChar c := by
  by_cases h1 : c = '\\'
  · subst h1; rfl
  · by_cases h2 : c = '"'
    · subst h2; rfl
    · by_cases h3 : c = '\''
      · subst h3; rfl
      · simp [escapeAppleScriptString, replaceChar, escChar, h1, h2, h3]

theorem escapeAppleScriptString_eq_flatMap (s : List Char) :
    escapeAppleScriptString s = s.flatMap escChar := by
  induction s with
  | nil => rfl
  | cons c t ih =>
    have h : (c :: t) = [c] ++ t := rfl
    rw [h, escapeAppleScriptString_append, escapeAppleScriptString_single, ih]
    simp [List.flatMap_append]

theorem unescapeQuoted_escChar (c : Char) (t : List Char) :
    unescapeQuoted (escChar c ++ t) = (unescapeQuoted t).map (fun r => c :: r) := by
  by_cases h1 : c = '\\'
  · subst h1; simp [escChar, unescapeQuoted]
  · by_cases h2 : c = '"'
    · subst h2; simp [escChar, unescapeQuoted]
    · by_cases h3 : c = '\''
      · subst h3; simp [escChar, unescapeQuoted]
      · cases t with
        | nil => simp [escChar, unescapeQuoted, h1, h2, h3]
        | cons x xs => simp [escChar, unescapeQuoted, h1, h2, h3]

theorem unescapeQuoted_escape (s : List Char) :
    unescapeQuoted (escapeAppleScriptString s) = some s := by
  rw [escapeAppleScriptString_eq_flatMap]
  induction s with
  | nil => rfl
  | cons c t ih =>
    rw [List.flatMap_cons, unescapeQuoted_escChar, ih]
    rfl

/-- The loop body of `columnNumberToLetter` (helpers.ts lines 226-234) and the
identical `numberToColumnLetter` (excel-applescript.ts lines 26-34):
`while (num > 0) { letter = chr(65 + (num-1) % 26) + letter; num = (num-1) / 26 }`.
The first argument is fuel; the loop runs at most `num` times because
`(num - 1) / 26 < num`, so fuel `num` always suffices (`columnNumberToLetterAux_fuel`). -/
def columnNumberToLetterAux : Nat → Nat → List Char
  | 0, _ => []
  | _, 0 => []
  | fuel + 1, n + 1 =>
    columnNumberToLetterAux fuel (n / 26) ++ [Char.ofNat (65 + n % 26)]

/-- `columnNumberToLetter` (helpers.ts lines 226-234). -/
def columnNumberToLetter (num : Nat) : List Char :=
  columnNumberToLetterAux num num

/-- `numberToColumnLetter` (excel-applescript.ts lines 26-34), character for
character the same loop as helpers.ts's `columnNumberToLetter`. -/
def numberToColumnLetter (num : Nat) : List Char :=
  columnNumberToLetterAux num num

/-- `columnLetterToNumber` (helpers.ts lines 218-224 and the identical copy at
excel-applescript.ts lines 39-45): `num = num * 26 + (charCode - 64)` folded
over the letters. -/
def columnLetterToNumber (letter : List Char) : Nat :=
  letter.foldl (fun acc c => acc * 26 + (c.toNat - 64)) 0

theorem char_toNat_ofNat (n : Nat) (h : n < 55296) : (Char.ofNat n).toNat = n := by
  rw [Char.ofNat, dif_pos (Or.inl h)]
  rfl

theorem columnLetterToNumber_concat (xs : List Char) (c : Char) :
    columnLetterToNumber (xs ++ [c]) =
      columnLetterToNumber xs * 26 + (c.toNat - 64) := by
  simp [columnLetterToNumber, List.foldl_append]

theorem columnNumberToLetterAux_fuel (fuel n : Nat) (h : n ≤ fuel) :
    columnLetterToNumber (columnNumberToLetterAux fuel n) = n := by
  induction fuel generalizing n with
  | zero =>
    interval_cases n
    rfl
  | succ f ih =>
    match n with
    | 0 => rfl
    | m + 1 =>
      rw [columnNumberToLetterAux, columnLetterToNumber_concat]
      rw [ih (m / 26) (by omega)]
      rw [char_toNat_ofNat (65 + m % 26) (by omega)]
      omega

theorem columnLetterToNumber_columnNumberToLetter (n : Nat) :
    columnLetterToNumber (columnNumberToLetter n) = n :=
  columnNumberToLetterAux_fuel n n (Nat.le_refl n)

/-- Decimal digits of a positive natural, most significant first; fuel-indexed
loop as in `columnNumberToLetterAux` (fuel `n` always suffices). -/
def natDigitsAux : Nat → Nat → List Char
  | 0, _ => []
  | _, 0 => []
  | fuel + 1, n + 1 =>
    natDigitsAux fuel ((n + 1) / 10) ++ [Char.ofNat (48 + (n + 1) % 10)]

/-- JavaScript `String(n)` for a natural number. -/
def natToString (n : Nat) : List Char :=
  if n = 0 then ['0'] else natDigitsAux n n

/-- JavaScript `String(i)` for an integral JS number: decimal form, a leading
minus sign when negative. Fractional doubles are outside this model; every
value the claims mention is integral. -/
def intToString (i : Int) : List Char :=
  if i < 0 then '-' :: natToString i.natAbs else natToString i.toNat

/-- A JavaScript `string | number` argument value (numbers restricted to
integral values, see `intToString`). -/
inductive JsValue where
  | num (i : Int)
  | str (s : List Char)
deriving DecidableEq

/-- `formatValueForAppleScript` (excel-applescript.ts lines 86-92): numbers
are rendered by `String(value)` with no quotes; strings are escaped and
wrapped in double quotes. -/
def formatValueForAppleScript : JsValue → List Char
  | .num i => intToString i
  | .str s => '"' :: (escapeAppleScriptString s ++ ['"'])

/-- A decimal digit character 0-9. -/
def isDecimalDigit (c : Char) : Bool :=
  decide (48 ≤ c.toNat ∧ c.toNat ≤ 57)

theorem natDigitsAux_digits (fuel : Nat) :
    ∀ (n : Nat) (c : Char), c ∈ natDigitsAux fuel n → isDecimalDigit c = true := by
  induction fuel with
  | zero =>
    intro n c hc
    simp [natDigitsAux] at hc
  | succ f ih =>
    intro n c hc
    match n with
    | 0 => simp [natDigitsAux] at hc
    | m + 1 =>
      rw [natDigitsAux] at hc
      rcases List.mem_append.mp hc with h | h
      · exact ih _ _ h
      · have he : c = Char.ofNat (48 + (m + 1) % 10) := List.mem_singleton.mp h
        have ht : (Char.ofNat (48 + (m + 1) % 10)).toNat = 48 + (m + 1) % 10 :=
          char_toNat_ofNat _ (by omega)
        subst he
        simp only [isDecimalDigit, ht]
        have hm : (m + 1) % 10 < 10 := Nat.mod_lt _ (by omega)
        exact decide_eq_true (by omega)

theorem intToString_decimal (i : Int) :
    (intToString i).all (fun c => isDecimalDigit c || c == '-') = true := by
  have hnat : ∀ n : Nat, (natToString n).all
      (fun c => isDecimalDigit c || c == '-') = true := by
    intro n
    rw [List.all_eq_true]
    intro c hc
    by_cases h : n = 0
    · subst h
      simp [natToString] at hc
      subst hc
      decide
    · simp only [natToString, if_neg h] at hc
      simp [natDigitsAux_digits n n c hc]
  by_cases h : i < 0
  · simp only [intToString, if_pos h, List.all_cons]
    simp [hnat i.natAbs]
  · simp only [intToString, if_neg h]
    exact hnat i.toNat

/-- The `cleanFormula` computation of `setFormula` (write.ts line 216):
`formula.startsWith('=') ? formula.substring(1) : formula` — a leading
`=` marker is removed before the formula is handed to either channel. -/
def setFormulaClean (formula : List Char) : List Char :=
  if formula.head? = some '=' then formula.drop 1 else formula

/-- The formula text `setFormula` transmits over the live channel: write.ts
line 221 passes `cleanFormula` to `setFormulaViaAppleScript`, which embeds
`escapeAppleScriptString(formula)` into
`set formula of range "..." to "<here>"` (excel-applescript.ts lines 487
and 496) with no `=` normalization. The live application therefore receives
`setFormulaClean formula` once it re-parses the quoted literal. -/
def setFormulaLivePayload (formula : List Char) : List Char :=
  escapeAppleScriptString (setFormulaClean formula)

/-- The second escaping pass of `execAppleScriptWithRetry`
(excel-applescript.ts line 107): `script.replace(/'/g, "'\\''")` — every
single quote of the fully assembled script becomes the four characters
quote, backslash, quote, quote. -/
def shQuoteEscape (s : List Char) : List Char :=
  s.flatMap (fun c => if c = '\'' then ['\'', '\\', '\'', '\''] else [c])

/-- The string handed to the host process launcher
(excel-applescript.ts line 108): `osascript -e '<escaped script>'`. -/
def osascriptCommand (script : List Char) : List Char :=
  ['o', 's', 'a', 's', 'c', 'r', 'i', 'p', 't', ' ', '-', 'e', ' ', '\''] ++
    (shQuoteEscape script ++ ['\''])

/-- The quoting mode of the POSIX shell scanner: outside quotes, inside a
single-quoted span, or just after an unquoted backslash. -/
inductive ShMode where
  | normal
  | single
  | esc
deriving DecidableEq

/-- POSIX word-splitting of a command string, restricted to the constructs
that occur in `osascriptCommand`: blanks separate words, a single-quoted span
is literal up to the closing quote, an unquoted backslash makes the next
character literal. Arguments: remaining input, mode, whether the current
word has started, the current word (reversed), finished words (reversed).
`none` models a syntax error (unterminated quote or trailing backslash). -/
def shellSplitAux : List Char → ShMode → Bool → List Char → List (List Char) →
    Option (List (List Char))
  | [], .esc, _, _, _ => none
  | [], .single, _, _, _ => none
  | [], .normal, inWord, cur, acc =>
    if inWord then some ((cur.reverse :: acc).reverse) else some acc.reverse
  | c :: rest, .esc, _, cur, acc => shellSplitAux rest .normal true (c :: cur) acc
  | c :: rest, .single, _, cur, acc =>
    if c = '\'' then shellSplitAux rest .normal true cur acc
    else shellSplitAux rest .single true (c :: cur) acc
  | c :: rest, .normal, inWord, cur, acc =>
    if c = '\'' then shellSplitAux rest .single true cur acc
    else if c = '\\' then shellSplitAux rest .esc true cur acc
    else if c = ' ' then
      if inWord then shellSplitAux rest .normal false [] (cur.reverse :: acc)
      else shellSplitAux rest .normal false [] acc
    else shellSplitAux rest .normal true (c :: cur) acc

/-- POSIX word-splitting of a whole command line. -/
def shellSplit (s : List Char) : Option (List (List Char)) :=
  shellSplitAux s ShMode.normal false [] []

theorem shellSplitAux_quoted_tail (s : List Char) :
    ∀ (cur : List Char) (acc : List (List Char)),
      shellSplitAux (shQuoteEscape s ++ ['\'']) ShMode.single true cur acc =
        some (((cur.reverse ++ s) :: acc).reverse) := by
  induction s with
  | nil =>
    intro cur acc
    simp [shQuoteEscape, shellSplitAux]
  | cons c t ih =>
    intro cur acc
    by_cases h : c = '\''
    · subst h
      show shellSplitAux ('\'' :: '\\' :: '\'' :: '\'' ::
        (shQuoteEscape t ++ ['\''])) ShMode.single true cur acc = _
      rw [shellSplitAux, if_pos rfl]
      rw [shellSplitAux, if_neg (by decide), if_pos rfl]
      rw [shellSplitAux]
      rw [shellSplitAux, if_pos rfl]
      rw [ih ('\'' :: cur) acc]
      simp
    · have hstep : shQuoteEscape (c :: t) ++ ['\''] =
          c :: (shQuoteEscape t ++ ['\'']) := by
        simp [shQuoteEscape, h]
      rw [hstep, shellSplitAux, if_neg h, ih (c :: cur) acc]
      simp

/-- `MAX_RETRIES` (excel-applescript.ts line 9). -/
def MAX_RETRIES : Nat := 3

/-- `RETRY_DELAY` in milliseconds (excel-applescript.ts line 10). -/
def RETRY_DELAY : Nat := 500

/-- The retry loop of `execAppleScriptWithRetry` (excel-applescript.ts lines
103-127): `for (attempt = 1; attempt <= retries; attempt++)` — try the
command; on success return its output; on failure re-throw when
`attempt === retries`, otherwise sleep `RETRY_DELAY * attempt` and continue.
`o` maps each attempt number to that attempt's outcome; the second argument
is the current attempt number and the third the number of attempts still
allowed (`retries + 1 - attempt`), so `0` is the exhausted-loop exit that
raises `Max retries exceeded` (modelled as `Except.error none`). The result
carries the attempt numbers tried and the milliseconds slept between them. -/
def execLoop {E A : Type} (o : Nat → Except E A) :
    Nat → Nat → Except (Option E) A × List Nat × List Nat
  | _, 0 => (.error none, [], [])
  | attempt, rem + 1 =>
    match o attempt with
    | .ok a => (.ok a, [attempt], [])
    | .error e =>
      if rem = 0 then (.error (some e), [attempt], [])
      else
        let r := execLoop o (attempt + 1) rem
        (r.1, attempt :: r.2.1, RETRY_DELAY * attempt :: r.2.2)

/-- `execAppleScriptWithRetry` with the default `retries = MAX_RETRIES`,
abstracted over the per-attempt outcome of `execAsync`. -/
def execAppleScriptWithRetry {E A : Type} (o : Nat → Except E A) :
    Except (Option E) A × List Nat × List Nat :=
  execLoop o 1 MAX_RETRIES

/-- The value of the `method` field of a successful operation result:
`'applescript'` (live channel) or `'exceljs'` (file channel). -/
inductive Method where
  | applescript
  | exceljs
deriving DecidableEq

/-- The observable calls an operation makes: the two probes
(`isExcelRunning`, `isFileOpenInExcel`), the live-channel mutation and save
(each one or more commands submitted through `execAppleScriptWithRetry`),
and the file-channel load (`loadWorkbook`) and save (`saveWorkbook`). -/
inductive Ev where
  | probeRunning
  | probeOpen
  | liveMutate
  | liveSave
  | fileLoad
  | fileSave
deriving DecidableEq

/-- The environment an operation runs against: what the probes report and
the final outcome of each adapter call (for the live calls, the outcome
after `execAppleScriptWithRetry` has exhausted its retries). -/
structure LiveEnv (E : Type) where
  running : Bool
  openProbe : Bool
  mutate : Except E Unit
  save : Except E Unit

/-- The file-channel outcomes: `loadWorkbook` (fs access + parse; a missing
sheet from `getSheet` is folded into this outcome) and `saveWorkbook`. -/
structure FileEnv (E : Type) where
  load : Except E Unit
  save : Except E Unit

/-- `updateCell` (write.ts lines 42-90): probe `isExcelRunning`, then
`isFileOpenInExcel` only when running; on `fileOpen` run
`updateCellViaAppleScript` then `saveFileViaAppleScript` and answer
`method: 'applescript'` — there is no try/catch, so a live failure
propagates to the caller; otherwise load, mutate and save the file and
answer `method: 'exceljs'`. Returns the result together with the trace of
calls made. -/
def updateCellRun {E : Type} (env : LiveEnv E) (fenv : FileEnv E) :
    Except E Method × List Ev :=
  let probeEvs := Ev.probeRunning :: (if env.running then [Ev.probeOpen] else [])
  let fileOpen := if env.running then env.openProbe else false
  if fileOpen then
    match env.mutate with
    | .error e => (.error e, probeEvs ++ [Ev.liveMutate])
    | .ok _ =>
      match env.save with
      | .error e => (.error e, probeEvs ++ [Ev.liveMutate, Ev.liveSave])
      | .ok _ => (.ok Method.applescript, probeEvs ++ [Ev.liveMutate, Ev.liveSave])
  else
    match fenv.load with
    | .error e => (.error e, probeEvs ++ [Ev.fileLoad])
    | .ok _ =>
      match fenv.save with
      | .error e => (.error e, probeEvs ++ [Ev.fileLoad, Ev.fileSave])
      | .ok _ => (.ok Method.exceljs, probeEvs ++ [Ev.fileLoad, Ev.fileSave])

/-- `deleteRows` (operations.ts lines 10-60): same probes; on `fileOpen` the
live mutation and live save run inside a try/catch whose catch logs and
falls through to the ExcelJS section, which always runs when the live path
did not return. The ExcelJS success JSON (lines 54-59) carries no `method`
field, hence `Option Method` with `none` for that result. -/
def deleteRowsRun {E : Type} (env : LiveEnv E) (fenv : FileEnv E) :
    Except E (Option Method) × List Ev :=
  let probeEvs := Ev.probeRunning :: (if env.running then [Ev.probeOpen] else [])
  let fileBranch := fun (evs : List Ev) =>
    match fenv.load with
    | .error e => ((.error e : Except E (Option Method)), evs ++ [Ev.fileLoad])
    | .ok _ =>
      match fenv.save with
      | .error e => (.error e, evs ++ [Ev.fileLoad, Ev.fileSave])
      | .ok _ => (.ok none, evs ++ [Ev.fileLoad, Ev.fileSave])
  let fileOpen := if env.running then env.openProbe else false
  if fileOpen then
    match env.mutate with
    | .error _ => fileBranch (probeEvs ++ [Ev.liveMutate])
    | .ok _ =>
      match env.save with
      | .error _ => fileBranch (probeEvs ++ [Ev.liveMutate, Ev.liveSave])
      | .ok _ => (.ok (some Method.applescript), probeEvs ++ [Ev.liveMutate, Ev.liveSave])
  else
    fileBranch probeEvs

/-- `insertRows` (advanced.ts lines 122-177): the same routing shape as
operations.ts's `deleteRows` — probes, then a try/catch around
`insertRowsViaAppleScript` + `saveFileViaAppleScript` whose catch logs and
falls through to the ExcelJS section; the ExcelJS success JSON
(advanced.ts lines 171-177) likewise carries no `method` field.
`insertColumns` (lines 179-236) and `unmergeCells` (lines 238-289) repeat
this shape verbatim. -/
def insertRowsRun {E : Type} (env : LiveEnv E) (fenv : FileEnv E) :
    Except E (Option Method) × List Ev :=
  let probeEvs := Ev.probeRunning :: (if env.running then [Ev.probeOpen] else [])
  let fileBranch := fun (evs : List Ev) =>
    match fenv.load with
    | .error e => ((.error e : Except E (Option Method)), evs ++ [Ev.fileLoad])
    | .ok _ =>
      match fenv.save with
      | .error e => (.error e, evs ++ [Ev.fileLoad, Ev.fileSave])
      | .ok _ => (.ok none, evs ++ [Ev.fileLoad, Ev.fileSave])
  let fileOpen := if env.running then env.openProbe else false
  if fileOpen then
    match env.mutate with
    | .error _ => fileBranch (probeEvs ++ [Ev.liveMutate])
    | .ok _ =>
      match env.save with
      | .error _ => fileBranch (probeEvs ++ [Ev.liveMutate, Ev.liveSave])
      | .ok _ => (.ok (some Method.applescript), probeEvs ++ [Ev.liveMutate, Ev.liveSave])
  else
    fileBranch probeEvs

/-- The failures a sheet operation of sheets.ts can surface. -/
inductive SheetErr (E : Type) where
  | loadFailed (e : E)
  | alreadyExists
  | sheetNotFound
  | liveFailed (e : E)
  | fileSaveFailed (e : E)

/-- The environment of the sheets.ts operations: the probe reports, the
on-disk workbook as `loadWorkbook` delivers it (its sheet names) or the
load failure, the live-channel call outcomes, and the file-channel save. -/
structure SheetsEnv (E : Type) where
  running : Bool
  openProbe : Bool
  disk : Except E (List (List Char))
  live : Except E Unit
  liveSave : Except E Unit
  fileSave : Except E Unit

/-- `createSheet` (sheets.ts lines 11-57): either branch first calls
`loadWorkbook` on the on-disk file and throws `Sheet already exists` from
the loaded workbook's sheet list; only then does the live branch call
`createSheetViaAppleScript` and `saveFileViaAppleScript`. -/
def createSheetRun {E : Type} (env : SheetsEnv E) (sheetName : List Char) :
    Except (SheetErr E) Method :=
  let fileOpen := if env.running then env.openProbe else false
  if fileOpen then
    match env.disk with
    | .error e => .error (.loadFailed e)
    | .ok sheets =>
      if sheetName ∈ sheets then .error .alreadyExists
      else
        match env.live with
        | .error e => .error (.liveFailed e)
        | .ok _ =>
          match env.liveSave with
          | .error e => .error (.liveFailed e)
          | .ok _ => .ok Method.applescript
  else
    match env.disk with
    | .error e => .error (.loadFailed e)
    | .ok sheets =>
      if sheetName ∈ sheets then .error .alreadyExists
      else
        match env.fileSave with
        | .error e => .error (.fileSaveFailed e)
        | .ok _ => .ok Method.exceljs

/-- `deleteSheet` (sheets.ts lines 59-99): both branches load the on-disk
workbook and throw `Sheet not found` (via `getSheet`) from its sheet list
before the live branch issues `deleteSheetViaAppleScript`. -/
def deleteSheetRun {E : Type} (env : SheetsEnv E) (sheetName : List Char) :
    Except (SheetErr E) Method :=
  let fileOpen := if env.running then env.openProbe else false
  if fileOpen then
    match env.disk with
    | .error e => .error (.loadFailed e)
    | .ok sheets =>
      if sheetName ∈ sheets then
        match env.live with
        | .error e => .error (.liveFailed e)
        | .ok _ =>
          match env.liveSave with
          | .error e => .error (.liveFailed e)
          | .ok _ => .ok Method.applescript
      else .error .sheetNotFound
  else
    match env.disk with
    | .error e => .error (.loadFailed e)
    | .ok sheets =>
      if sheetName ∈ sheets then
        match env.fileSave with
        | .error e => .error (.fileSaveFailed e)
        | .ok _ => .ok Method.exceljs
      else .error .sheetNotFound

/-- `renameSheet` (sheets.ts lines 101-153): both branches load the on-disk
workbook, require `oldName` to exist and `newName` not to exist there, and
only then mutate (live branch: `renameSheetViaAppleScript` + save). -/
def renameSheetRun {E : Type} (env : SheetsEnv E) (oldName newName : List Char) :
    Except (SheetErr E) Method :=
  let fileOpen := if env.running then env.openProbe else false
  if fileOpen then
    match env.disk with
    | .error e => .error (.loadFailed e)
    | .ok sheets =>
      if oldName ∈ sheets then
        if newName ∈ sheets then .error .alreadyExists
        else
          match env.live with
          | .error e => .error (.liveFailed e)
          | .ok _ =>
            match env.liveSave with
            | .error e => .error (.liveFailed e)
            | .ok _ => .ok Method.applescript
      else .error .sheetNotFound
  else
    match env.disk with
    | .error e => .error (.loadFailed e)
    | .ok sheets =>
      if oldName ∈ sheets then
        if newName ∈ sheets then .error .alreadyExists
        else
          match env.fileSave with
          | .error e => .error (.fileSaveFailed e)
          | .ok _ => .ok Method.exceljs
      else .error .sheetNotFound

/-- The per-cell write loop of `addRowViaAppleScript` (excel-applescript.ts
lines 304-321): for index `i` from `0`, the cell written is column
`numberToColumnLetter (i + 1)` of row `newRow`. -/
def addRowCells {V : Type} (newRow : Nat) : Nat → List V → List (List Char × Nat × V)
  | _, [] => []
  | i, v :: rest => (numberToColumnLetter (i + 1), newRow, v) :: addRowCells newRow (i + 1) rest

/-- `addRowViaAppleScript` (excel-applescript.ts lines 274-332): read the
used-range extent (`usedCount`), set `newRow = usedCount + 1` (line 299,
`lastRow + 1`), then write the row's cells one by one. Returns the target
row and the (column letter, row, value) of every write command issued. -/
def addRowViaAppleScriptPlan {V : Type} (usedCount : Nat) (rowData : List V) :
    Nat × List (List Char × Nat × V) :=
  (usedCount + 1, addRowCells (usedCount + 1) 0 rowData)

theorem addRowCells_letters {V : Type} (newRow : Nat) :
    ∀ (i : Nat) (l : List V),
      (addRowCells newRow i l).map (fun w => w.1) =
        (List.range l.length).map (fun k => numberToColumnLetter (i + k + 1)) := by
  intro i l
  induction l generalizing i with
  | nil => rfl
  | cons v t ih =>
    simp only [addRowCells, List.map_cons, List.length_cons,
      List.range_succ_eq_map, List.map_map]
    rw [ih (i + 1)]
    refine congrArg₂ _ (by simp) ?_
    apply List.map_congr_left
    intro a _
    simp [Function.comp]
    congr 1
    omega

theorem addRowCells_rows {V : Type} (newRow : Nat) :
    ∀ (i : Nat) (l : List V),
      (addRowCells newRow i l).map (fun w => w.2.1) =
        List.replicate l.length newRow := by
  intro i l
  induction l generalizing i with
  | nil => rfl
  | cons v t ih =>
    simp only [addRowCells, List.map_cons, List.length_cons, List.replicate_succ]
    rw [ih (i + 1)]

/-- C1: the claim says every formula transmitted over the live channel is
normalized to start with the `=` marker (and FORMULA_ERROR_FIX.md documents
exactly that normalization as the shipped fix for the `_xludf` bug). The
code does the opposite: write.ts line 216 strips a leading `=` and
excel-applescript.ts lines 487/496 transmit the stripped text as is, so the
payload for `B2*C2` — and even for `=B2*C2` — is `B2*C2`, which does not
start with `=`. -/
theorem setFormula_payload_unprefixed_c1 :
    setFormulaClean ['B', '2', '*', 'C', '2'] = ['B', '2', '*', 'C', '2'] ∧
    setFormulaLivePayload ['B', '2', '*', 'C', '2'] = ['B', '2', '*', 'C', '2'] ∧
    setFormulaClean ['=', 'B', '2', '*', 'C', '2'] = ['B', '2', '*', 'C', '2'] ∧
    (setFormulaLivePayload ['B', '2', '*', 'C', '2']).head? = some 'B' := by
  refine ⟨rfl, by decide, rfl, by decide⟩

/-- C2 counterexample: with the probes reporting the application running and
the document open, the live mutation failing (after all its retries) and the
file channel able to succeed, `updateCell` (write.ts lines 42-90) returns
the live error instead of falling through to the file path: the claimed
fall-through does not hold for every mutation operation. -/
theorem updateCell_live_failure_propagates_c2_cex :
    (updateCellRun ⟨true, true, Except.error (), Except.ok ()⟩
        ⟨Except.ok (), Except.ok ()⟩).1 = Except.error () ∧
    (updateCellRun ⟨true, true, Except.error (), Except.ok ()⟩
        ⟨Except.ok (), Except.ok ()⟩).2 =
      [Ev.probeRunning, Ev.probeOpen, Ev.liveMutate] :=
  ⟨rfl, rfl⟩

/-- C2 (amended): the catch-and-fall-through behaviour holds for the
mutations that wrap their live path in a try/catch — `deleteRows` of
operations.ts and `insertRows` of advanced.ts (and their siblings of the
same shape): with probes (running, open), a live channel failing on every
retry and a succeeding file channel they still return success via the file
path, though the fallback result carries no `method` field at all rather
than the file method — but not for every mutation operation: the write.ts
mutations such as `updateCell` propagate the live failure to the caller. -/
theorem tryCatch_mutations_fall_through_updateCell_does_not_c2 :
    ∀ (E : Type) (e : E) (sv : Except E Unit),
      (deleteRowsRun ⟨true, true, .error e, sv⟩ ⟨.ok (), .ok ()⟩).1 =
        .ok none ∧
      Ev.fileLoad ∈ (deleteRowsRun ⟨true, true, .error e, sv⟩ ⟨.ok (), .ok ()⟩).2 ∧
      Ev.fileSave ∈ (deleteRowsRun ⟨true, true, .error e, sv⟩ ⟨.ok (), .ok ()⟩).2 ∧
      (insertRowsRun ⟨true, true, .error e, sv⟩ ⟨.ok (), .ok ()⟩).1 =
        .ok none ∧
      Ev.fileLoad ∈ (insertRowsRun ⟨true, true, .error e, sv⟩ ⟨.ok (), .ok ()⟩).2 ∧
      Ev.fileSave ∈ (insertRowsRun ⟨true, true, .error e, sv⟩ ⟨.ok (), .ok ()⟩).2 ∧
      (updateCellRun ⟨true, true, .error e, sv⟩ ⟨.ok (), .ok ()⟩).1 =
        .error e := by
  intro E e sv
  refine ⟨rfl, ?_, ?_, rfl, ?_, ?_, rfl⟩ <;> simp [deleteRowsRun, insertRowsRun]

/-- C3: `escapeAppleScriptString` alters exactly the characters backslash,
double quote and single quote (each is prefixed with a backslash, the
backslash pass running first so chaining the three global replaces equals a
single per-character pass), and re-parsing the escaped text as a quoted
string literal yields the original text: escape-then-unescape is the
identity on every string. -/
theorem escapeForCommand_roundtrip_c3 :
    (∀ s : List Char, unescapeQuoted (escapeAppleScriptString s) = some s) ∧
    (∀ c : Char,
      escapeAppleScriptString [c] =
        if c = '\\' ∨ c = '"' ∨ c = '\'' then ['\\', c] else [c]) := by
  refine ⟨unescapeQuoted_escape, ?_⟩
  intro c
  rw [escapeAppleScriptString_single]
  by_cases h1 : c = '\\'
  · subst h1; simp [escChar]
  · by_cases h2 : c = '"'
    · subst h2; simp [escChar]
    · by_cases h3 : c = '\''
      · subst h3; simp [escChar]
      · simp [escChar, h1, h2, h3]

/-- C4: the second escaping pass of `execAppleScriptWithRetry` replaces
every single quote of the fully assembled script with the sequence
quote-backslash-quote-quote, and the resulting launcher string
`osascript -e '<escaped>'` word-splits under POSIX shell quoting to exactly
the three words `osascript`, `-e` and the original script — no single quote
of the script can terminate the outer single-quoted wrapper early. (Each
adapter of excel-applescript.ts submits its commands exclusively through
`execAppleScriptWithRetry`, so every live-channel command passes this
choke point.) -/
theorem shellQuoteEscape_preserves_script_c4 :
    ∀ script : List Char,
      shellSplit (osascriptCommand script) =
        some [['o', 's', 'a', 's', 'c', 'r', 'i', 'p', 't'], ['-', 'e'], script] := by
  intro script
  show shellSplitAux (shQuoteEscape script ++ ['\''])
      ShMode.single true []
      [['-', 'e'], ['o', 's', 'a', 's', 'c', 'r', 'i', 'p', 't']] = _
  rw [shellSplitAux_quoted_tail script []
    [['-', 'e'], ['o', 's', 'a', 's', 'c', 'r', 'i', 'p', 't']]]
  simp

/-- C5: the column conversions realize bijective base-26: the round trip
`columnLetterToNumber (columnNumberToLetter n) = n` holds for every column
number in [1, 16384], with 1 ↔ A, 26 ↔ Z, 27 ↔ AA, 52 ↔ AZ, 53 ↔ BA and
16384 ↔ XFD in both directions. -/
theorem columnConversion_roundtrip_c5 :
    (∀ n : Nat, 1 ≤ n → n ≤ 16384 →
      columnLetterToNumber (columnNumberToLetter n) = n) ∧
    columnNumberToLetter 1 = ['A'] ∧ columnLetterToNumber ['A'] = 1 ∧
    columnNumberToLetter 26 = ['Z'] ∧ columnLetterToNumber ['Z'] = 26 ∧
    columnNumberToLetter 27 = ['A', 'A'] ∧ columnLetterToNumber ['A', 'A'] = 27 ∧
    columnNumberToLetter 52 = ['A', 'Z'] ∧ columnLetterToNumber ['A', 'Z'] = 52 ∧
    columnNumberToLetter 53 = ['B', 'A'] ∧ columnLetterToNumber ['B', 'A'] = 53 ∧
    columnNumberToLetter 16384 = ['X', 'F', 'D'] ∧
    columnLetterToNumber ['X', 'F', 'D'] = 16384 := by
  refine ⟨fun n _ _ => columnLetterToNumber_columnNumberToLetter n,
    ?_, ?_, ?_, ?_, ?_, ?_, ?_, ?_, ?_, ?_, ?_, ?_⟩ <;> decide

/-- C6: `formatValueForAppleScript` renders a numeric value as a bare
decimal token (digits, possibly a leading minus — never a quote) and a
string value escaped and wrapped in double quotes; in particular the number
42 yields `42` while the string "42" yields `"42"`, two different outputs. -/
theorem formatValueForAppleScript_typing_c6 :
    (∀ i : Int, (formatValueForAppleScript (.num i)).all
        (fun c => isDecimalDigit c || c == '-') = true) ∧
    (∀ s : List Char, formatValueForAppleScript (.str s) =
        '"' :: (escapeAppleScriptString s ++ ['"'])) ∧
    formatValueForAppleScript (.num 42) = ['4', '2'] ∧
    formatValueForAppleScript (.str ['4', '2']) = ['"', '4', '2', '"'] ∧
    formatValueForAppleScript (.num 42) ≠ formatValueForAppleScript (.str ['4', '2']) := by
  refine ⟨fun i => intToString_decimal i, fun s => rfl, by decide, by decide, by decide⟩

/-- C7: `execAppleScriptWithRetry` at its default of 3 retries is fully
characterized by the outcomes of attempts 1-3: a success is returned
immediately (in particular two failures followed by a success return that
success), the error of attempt 3 is re-raised only after that last attempt,
the sleeps between consecutive attempts are `RETRY_DELAY * attempt` — 500ms
then 1000ms, strictly increasing and linear — and at most 3 attempts are
made. -/
theorem execAppleScriptWithRetry_c7 :
    ∀ (E A : Type) (o : Nat → Except E A),
      (execAppleScriptWithRetry o =
        match o 1 with
        | .ok a => (.ok a, [1], [])
        | .error _ =>
          match o 2 with
          | .ok a => (.ok a, [1, 2], [500])
          | .error _ =>
            match o 3 with
            | .ok a => (.ok a, [1, 2, 3], [500, 1000])
            | .error e => (.error (some e), [1, 2, 3], [500, 1000])) ∧
      List.Chain' (· < ·) (execAppleScriptWithRetry o).2.2 ∧
      (execAppleScriptWithRetry o).2.1.length ≤ 3 := by
  intro E A o
  have hch : execAppleScriptWithRetry o =
      match o 1 with
      | .ok a => (.ok a, [1], [])
      | .error _ =>
        match o 2 with
        | .ok a => (.ok a, [1, 2], [500])
        | .error _ =>
          match o 3 with
          | .ok a => (.ok a, [1, 2, 3], [500, 1000])
          | .error e => (.error (some e), [1, 2, 3], [500, 1000]) := by
    rcases h1 : o 1 with e1 | a1 <;> rcases h2 : o 2 with e2 | a2 <;>
      rcases h3 : o 3 with e3 | a3 <;>
      simp [execAppleScriptWithRetry, MAX_RETRIES, RETRY_DELAY, execLoop, h1, h2, h3]
  refine ⟨hch, ?_, ?_⟩ <;> rw [hch] <;>
    rcases o 1 with e1 | a1 <;> rcases o 2 with e2 | a2 <;>
    rcases o 3 with e3 | a3 <;> simp

/-- C8: when `isExcelRunning` reports false, both `updateCell` and
`deleteRows` go straight to the file channel: `isFileOpenInExcel` is never
queried, no live-channel command is submitted (so `execAppleScriptWithRetry`
is never invoked on their behalf), the file is loaded, and any successful
result carries the file method (`exceljs`; for `deleteRows` the fallback
result has no method field). -/
theorem routerSkipsLiveWhenNotRunning_c8 :
    ∀ (E : Type) (op : Bool) (mu sv fl fs : Except E Unit),
      Ev.probeOpen ∉ (updateCellRun ⟨false, op, mu, sv⟩ ⟨fl, fs⟩).2 ∧
      Ev.liveMutate ∉ (updateCellRun ⟨false, op, mu, sv⟩ ⟨fl, fs⟩).2 ∧
      Ev.liveSave ∉ (updateCellRun ⟨false, op, mu, sv⟩ ⟨fl, fs⟩).2 ∧
      Ev.fileLoad ∈ (updateCellRun ⟨false, op, mu, sv⟩ ⟨fl, fs⟩).2 ∧
      (∀ m, (updateCellRun ⟨false, op, mu, sv⟩ ⟨fl, fs⟩).1 = .ok m →
        m = Method.exceljs) ∧
      Ev.probeOpen ∉ (deleteRowsRun ⟨false, op, mu, sv⟩ ⟨fl, fs⟩).2 ∧
      Ev.liveMutate ∉ (deleteRowsRun ⟨false, op, mu, sv⟩ ⟨fl, fs⟩).2 ∧
      Ev.liveSave ∉ (deleteRowsRun ⟨false, op, mu, sv⟩ ⟨fl, fs⟩).2 ∧
      Ev.fileLoad ∈ (deleteRowsRun ⟨false, op, mu, sv⟩ ⟨fl, fs⟩).2 ∧
      (∀ r, (deleteRowsRun ⟨false, op, mu, sv⟩ ⟨fl, fs⟩).1 = .ok r →
        r = none) := by
  intro E op mu sv fl fs
  rcases fl with e | u <;> rcases fs with e2 | u2 <;>
    simp [updateCellRun, deleteRowsRun]

/-- C9: the live-channel `addRow` writes at row `usedRowCount + 1` and
addresses cell `i` (0-based) with the bijective conversion
`numberToColumnLetter (i + 1)`, so a 30-element row goes to the 30 distinct
columns A, B, …, Z, AA, AB, AC, AD — no wrap or truncation at column Z. -/
theorem addRow_thirtyColumns_c9 :
    (∀ (V : Type) (usedCount : Nat) (rowData : List V),
      (addRowViaAppleScriptPlan usedCount rowData).1 = usedCount + 1) ∧
    (∀ (V : Type) (usedCount : Nat) (rowData : List V),
      (addRowViaAppleScriptPlan usedCount rowData).2.map (fun w => w.1) =
        (List.range rowData.length).map (fun k => numberToColumnLetter (k + 1))) ∧
    (∀ (V : Type) (usedCount : Nat) (rowData : List V),
      (addRowViaAppleScriptPlan usedCount rowData).2.map (fun w => w.2.1) =
        List.replicate rowData.length (usedCount + 1)) ∧
    (List.range 30).map (fun k => numberToColumnLetter (k + 1)) =
      [['A'], ['B'], ['C'], ['D'], ['E'], ['F'], ['G'], ['H'], ['I'], ['J'],
       ['K'], ['L'], ['M'], ['N'], ['O'], ['P'], ['Q'], ['R'], ['S'], ['T'],
       ['U'], ['V'], ['W'], ['X'], ['Y'], ['Z'],
       ['A', 'A'], ['A', 'B'], ['A', 'C'], ['A', 'D']] ∧
    ((List.range 30).map (fun k => numberToColumnLetter (k + 1))).Nodup := by
  refine ⟨fun V u d => rfl, ?_, fun V u d => addRowCells_rows _ 0 d, by decide, by decide⟩
  intro V u d
  have h := addRowCells_letters (u + 1) 0 d
  simpa using h

/-- C10: with the live document open, `createSheet`, `deleteSheet` and
`renameSheet` first load the workbook from disk: if `loadWorkbook` fails
(file missing or unreadable) the operation fails with that load error no
matter what the live channel would have done, and the duplicate/existence
checks are decided by the on-disk sheet list, not the live application's
state. -/
theorem sheetOps_diskAuthority_c10 :
    ∀ (E : Type) (e : E) (lv ls fs : Except E Unit)
      (sheets : List (List Char)) (n m : List Char),
      createSheetRun ⟨true, true, .error e, lv, ls, fs⟩ n =
        .error (.loadFailed e) ∧
      deleteSheetRun ⟨true, true, .error e, lv, ls, fs⟩ n =
        .error (.loadFailed e) ∧
      renameSheetRun ⟨true, true, .error e, lv, ls, fs⟩ n m =
        .error (.loadFailed e) ∧
      (n ∈ sheets →
        createSheetRun ⟨true, true, .ok sheets, lv, ls, fs⟩ n =
          .error .alreadyExists) ∧
      (n ∉ sheets →
        deleteSheetRun ⟨true, true, .ok sheets, lv, ls, fs⟩ n =
          .error .sheetNotFound) ∧
      (n ∈ sheets → m ∈ sheets →
        renameSheetRun ⟨true, true, .ok sheets, lv, ls, fs⟩ n m =
          .error .alreadyExists) := by
  intro E e lv ls fs sheets n m
  refine ⟨rfl, rfl, rfl, ?_, ?_, ?_⟩
  · intro h; simp [createSheetRun, h]
  · intro h; simp [deleteSheetRun, h]
  · intro h1 h2; simp [renameSheetRun, h1, h2]

end ExcelMcp
